import Mathlib

/-!
Verification development for the Spend-Tracker dashboard (`src/app.py`).

The program is a linear pipeline: fetch all rows of a remote spreadsheet,
coerce the `Amount` column to numbers and the `Date` column to dates,
aggregate (totals, category breakdown, monthly trend, recent rows) and
append one new row per form submission.  Every definition below is a
shallow embedding of a line of `app.py` (or of the pandas / gspread
library call that line makes); amounts are modelled as rational numbers,
dates as year/month/day triples.
-/

namespace SpendTracker

/-- A calendar date, as produced by `pd.to_datetime` on an ISO date string. -/
structure YMD where
  year : Nat
  month : Nat
  day : Nat
deriving DecidableEq, Repr

/-- One spreadsheet / dataframe cell.  `gspread.get_all_records` yields
string or numeric cells; the loader's coercions introduce `date` cells and
the null marker (pandas `NaN`/`NaT`). -/
inductive Cell where
  | str (s : String)
  | num (q : ℚ)
  | date (d : YMD)
  | null
deriving DecidableEq, Repr

/-- The remote store (`sheet`): a header row naming the columns, and the
data rows below it.  `get_all_records()` keys each data row by the header
row, padding every row to the header's width, so a row is kept as a plain
cell list aligned with `headers`. -/
structure Sheet where
  headers : List String
  rows : List (List Cell)
deriving DecidableEq, Repr

/-- The in-memory table (`pd.DataFrame`): column names plus rows of cells. -/
structure DataFrame where
  cols : List String
  rows : List (List Cell)
deriving DecidableEq, Repr

/-- The fixed schema used for an empty load,
`pd.DataFrame(columns=["Date", "Item", "Category", "Amount", "Type", "Notes"])`. -/
def stdCols : List String := ["Date", "Item", "Category", "Amount", "Type", "Notes"]

/-- Split a character list at every occurrence of `sep`
(the behaviour of `String.splitOn` for a one-character separator). -/
def splitChars (sep : Char) : List Char → List (List Char)
  | [] => [[]]
  | c :: rest =>
      if c == sep then [] :: splitChars sep rest
      else
        match splitChars sep rest with
        | [] => [[c]]
        | h :: t => (c :: h) :: t

/-- Value of a digit string, most significant digit first. -/
def digitsToNat (acc : Nat) : List Char → Nat
  | [] => acc
  | c :: rest => digitsToNat (acc * 10 + (c.toNat - '0'.toNat)) rest

/-- Unsigned decimal: digits with an optional fractional part. -/
def parseNumCore (t : List Char) : Option ℚ :=
  match splitChars '.' t with
  | [i] =>
      if !i.isEmpty && i.all Char.isDigit then some ((digitsToNat 0 i : ℚ))
      else none
  | [i, f] =>
      if (!i.isEmpty || !f.isEmpty) && i.all Char.isDigit && f.all Char.isDigit
      then some ((digitsToNat 0 i : ℚ) + (digitsToNat 0 f : ℚ) / (10 : ℚ) ^ f.length)
      else none
  | _ => none

/-- Modelled from the library: `pd.to_numeric(·, errors='coerce')` on a
string cell — an optional sign, then decimal digits with an optional
fractional part.  Any other shape is unparseable and yields `none` (NaN). -/
def parseNumStr (s : String) : Option ℚ :=
  match s.data with
  | '-' :: rest => (parseNumCore rest).map (fun q => -q)
  | '+' :: rest => parseNumCore rest
  | cs => parseNumCore cs

def isLeap (y : Nat) : Bool :=
  (y % 4 == 0 && y % 100 != 0) || y % 400 == 0

def daysInMonth (y m : Nat) : Nat :=
  if m == 2 then (if isLeap y then 29 else 28)
  else if m == 4 || m == 6 || m == 9 || m == 11 then 30
  else 31

/-- Modelled from the library: `pd.to_datetime(·, errors='coerce')` on a
string cell, restricted to the ISO `YYYY-MM-DD` layout the store holds
(form submissions write `str(date)`, which is exactly that layout).
Anything unparseable yields `none` (NaT). -/
def parseDateStr (s : String) : Option YMD :=
  match splitChars '-' s.data with
  | [y, m, d] =>
      if !y.isEmpty && y.all Char.isDigit && !m.isEmpty && m.all Char.isDigit
          && !d.isEmpty && d.all Char.isDigit then
        let yn := digitsToNat 0 y
        let mn := digitsToNat 0 m
        let dn := digitsToNat 0 d
        if 1 ≤ mn && mn ≤ 12 && 1 ≤ dn && dn ≤ daysInMonth yn mn
        then some ⟨yn, mn, dn⟩ else none
      else none
  | _ => none

/-- Numeric reading of one cell: numeric cells pass through
`pd.to_numeric` unchanged, string cells are parsed, anything else is NaN. -/
def parseNumCell : Cell → Option ℚ
  | .num q => some q
  | .str s => parseNumStr s
  | _ => none

/-- Date reading of one cell: date cells pass through, string cells are
parsed, anything else is NaT. -/
def parseDateCell : Cell → Option YMD
  | .date d => some d
  | .str s => parseDateStr s
  | _ => none

/-- `pd.to_numeric(x, errors='coerce')` followed by `.fillna(0)`:
an unparseable amount becomes the number 0. -/
def coerceNumCell (c : Cell) : Cell :=
  .num ((parseNumCell c).getD 0)

/-- `pd.to_datetime(x, errors='coerce')`: an unparseable date becomes the
null marker NaT. -/
def coerceDateCell (c : Cell) : Cell :=
  match parseDateCell c with
  | some d => .date d
  | none => .null

/-- `df[c] = f(df[c])` column assignment: rewrite the cell in column `c`
of every row; a no-op when the column is absent. -/
def mapCol (df : DataFrame) (c : String) (f : Cell → Cell) : DataFrame :=
  match df.cols.findIdx? (fun h => h == c) with
  | some i => ⟨df.cols, df.rows.map (fun r => r.set i (f (r.getD i .null)))⟩
  | none => df

/-- `c in df.columns`. -/
def DataFrame.hasCol (df : DataFrame) (c : String) : Bool :=
  df.cols.contains c

/-- `load_data()` (app.py:59-71): fetch all records; an empty store gives
an empty six-column frame; otherwise build the frame from the fetched
rows, then coerce `Amount` (if present) and then `Date` (if present). -/
def load_data (sheet : Sheet) : DataFrame :=
  if sheet.rows.isEmpty then ⟨stdCols, []⟩
  else
    let df : DataFrame := ⟨sheet.headers, sheet.rows⟩
    let df := if df.hasCol "Amount" then mapCol df "Amount" coerceNumCell else df
    let df := if df.hasCol "Date" then mapCol df "Date" coerceDateCell else df
    df

/-- Cell of named column `c` in row `r`, `r` laid out along `cols`. -/
def lookupCell (cols : List String) (r : List Cell) (c : String) : Cell :=
  match cols.findIdx? (fun h => h == c) with
  | some i => r.getD i .null
  | none => .null

/-- Cell at data row `i`, named column `c` of a frame. -/
def DataFrame.cell (df : DataFrame) (i : Nat) (c : String) : Cell :=
  lookupCell df.cols (df.rows.getD i []) c

/-- Cell at data row `i`, named column `c` of the raw store. -/
def Sheet.cell (s : Sheet) (i : Nat) (c : String) : Cell :=
  lookupCell s.headers (s.rows.getD i []) c

/-! ## The typed transaction table

After `load_data` the dashboard reads the frame through its six named
columns; a row of the loaded table is the record of those six typed
reads.  `Type` is a Lean keyword, so the source's `Type` column is the
field `Type'`. -/

structure Row where
  Date : Option YMD
  Item : String
  Category : String
  Amount : ℚ
  Type' : String
  Notes : String
deriving DecidableEq, Repr

abbrev Table := List Row

def cellStrD : Cell → String
  | .str s => s
  | _ => ""

def cellRatD : Cell → ℚ
  | .num q => q
  | _ => 0

def cellDateD : Cell → Option YMD
  | .date d => some d
  | _ => none

/-- The typed view of one frame row, each field read from its named column. -/
def rowOfCells (cols : List String) (r : List Cell) : Row :=
  { Date := cellDateD (lookupCell cols r "Date")
    Item := cellStrD (lookupCell cols r "Item")
    Category := cellStrD (lookupCell cols r "Category")
    Amount := cellRatD (lookupCell cols r "Amount")
    Type' := cellStrD (lookupCell cols r "Type")
    Notes := cellStrD (lookupCell cols r "Notes") }

/-- The typed view of a whole frame. -/
def toTable (df : DataFrame) : Table :=
  df.rows.map (rowOfCells df.cols)

/-! ## Aggregations (app.py:86-88, 99, 109, 122-123, 129) -/

/-- `df[df['Type'] == 'Expense']['Amount'].sum()` (app.py:86). -/
def total_spend (T : Table) : ℚ :=
  ((T.filter (fun r => r.Type' == "Expense")).map (fun r => r.Amount)).sum

/-- `df[df['Type'] == 'Income']['Amount'].sum()` (app.py:87). -/
def total_income (T : Table) : ℚ :=
  ((T.filter (fun r => r.Type' == "Income")).map (fun r => r.Amount)).sum

/-- `balance = total_income - total_spend` (app.py:88). -/
def balance (T : Table) : ℚ :=
  total_income T - total_spend T

/-- `expenses = df[df['Type'] == 'Expense']` (app.py:109). -/
def expenses (T : Table) : Table :=
  T.filter (fun r => r.Type' == "Expense")

/-- Stable insertion of `x` in front of the first element it must precede:
`le x y` says `x` may sit before `y`. -/
def insSorted {α : Type} (le : α → α → Bool) (x : α) : List α → List α
  | [] => [x]
  | y :: l => if le x y then x :: y :: l else y :: insSorted le x l

/-- Stable insertion sort; the model of `DataFrame.sort_values` (and of the
key ordering `groupby(sort=True)` applies). -/
def sortBy {α : Type} (le : α → α → Bool) : List α → List α
  | [] => []
  | x :: l => insSorted le x (sortBy le l)

/-- Lexicographic (code-point) comparison of character lists:
the order Python, and hence pandas, uses on strings. -/
def charListLe : List Char → List Char → Bool
  | [], _ => true
  | _ :: _, [] => false
  | a :: as, b :: bs =>
      if a < b then true else if b < a then false else charListLe as bs

def strLeB (a b : String) : Bool :=
  charListLe a.data b.data

/-- Ascending sort of the group keys. -/
def sortStr : List String → List String :=
  sortBy strLeB

/-- `df.groupby(key)['Amount'].sum().reset_index()`: one `(key, sum)` pair
per distinct key, keys in ascending order (groupby sorts its keys). -/
def groupbySum (key : Row → String) (T : Table) : List (String × ℚ) :=
  (sortStr ((T.map key).dedup)).map
    (fun k => (k, ((T.filter (fun r => key r == k)).map (fun r => r.Amount)).sum))

/-- `expenses.groupby('Category')['Amount'].sum().reset_index()
.sort_values(by='Amount', ascending=False)` (app.py:129).  The final sort
is by summed amount, descending, stable. -/
def cat_breakdown (T : Table) : List (String × ℚ) :=
  sortBy (fun a b => decide (b.2 ≤ a.2)) (groupbySum (fun r => r.Category) (expenses T))

/-- `expenses['Date'].dt.to_period('M').astype(str)` on one row
(app.py:122): the `"YYYY-MM"` period string; a null date renders as the
string `"NaT"`. -/
def monthKey (r : Row) : String :=
  match r.Date with
  | some d => toString d.year ++ "-" ++ (if d.month < 10 then "0" ++ toString d.month else toString d.month)
  | none => "NaT"

/-- `expenses.groupby('Month')['Amount'].sum().reset_index()` (app.py:123). -/
def monthly_data (T : Table) : List (String × ℚ) :=
  groupbySum monthKey (expenses T)

/-- Comparator of `df.sort_values(by="Date", ascending=False)` (app.py:99):
dates descending, nulls last (`na_position='last'`). -/
def YMD.le (a b : YMD) : Bool :=
  a.year < b.year || (a.year == b.year && (a.month < b.month ||
    (a.month == b.month && a.day ≤ b.day)))

def recentRel (a b : Row) : Bool :=
  match a.Date, b.Date with
  | some x, some y => YMD.le y x
  | some _, none => true
  | none, some _ => false
  | none, none => true

/-- `df.sort_values(by="Date", ascending=False).head(5)` (app.py:99). -/
def recent (T : Table) : Table :=
  (sortBy recentRel T).take 5

/-! ## Entry submission (app.py:136-161) -/

/-- `str(date_in)` for a Python `datetime.date`: ISO `YYYY-MM-DD`. -/
def dateToStr (d : YMD) : String :=
  toString d.year ++ "-"
    ++ (if d.month < 10 then "0" ++ toString d.month else toString d.month) ++ "-"
    ++ (if d.day < 10 then "0" ++ toString d.day else toString d.day)

/-- `new_row = [str(date_in), item_in, category_in, amount_in, type_in, notes_in]`
(app.py:153), arguments in the order the form collects them. -/
def new_row (date_in : YMD) (item_in : String) (amount_in : ℚ)
    (type_in category_in notes_in : String) : List Cell :=
  [.str (dateToStr date_in), .str item_in, .str category_in,
   .num amount_in, .str type_in, .str notes_in]

/-- Modelled from the library: `sheet.append_row(row)` adds the row at the
end of the store. -/
def appendRow (s : Sheet) (row : List Cell) : Sheet :=
  ⟨s.headers, s.rows ++ [row]⟩

/-- Observable outcome of one submission: the rows handed to
`append_row` (in call order), the store afterwards, the message shown to
the user, and whether `st.rerun()` (the full reload) fired. -/
structure SubmitResult where
  attempts : List (List Cell)
  sheet : Sheet
  message : String
  reran : Bool
deriving DecidableEq, Repr

/-- The submit branch (app.py:151-161).  The environment decides whether
the single `append_row` call raises; `failMsg = some e` models the raised
exception's message.  On success the handler reports success and reruns
the page; on failure it reports the error and stops. -/
def submit_handler (failMsg : Option String) (s : Sheet) (date_in : YMD)
    (item_in : String) (amount_in : ℚ) (type_in category_in notes_in : String) :
    SubmitResult :=
  let row := new_row date_in item_in amount_in type_in category_in notes_in
  match failMsg with
  | none => ⟨[row], appendRow s row, "Transaction Saved!", true⟩
  | some e => ⟨[row], s, "Error saving to Google Sheet: " ++ e, false⟩

/-- Per-row effect of `load_data` on a store row laid out along `stdCols`:
`Amount` (index 3) then `Date` (index 0) are coerced in place. -/
def coerceStdCells (r : List Cell) : List Cell :=
  ((r.set 3 (coerceNumCell (r.getD 3 .null))).set 0
    (coerceDateCell (r.getD 0 .null)))

/-- Typed view of one freshly loaded standard-layout store row. -/
def coerceStdRow (r : List Cell) : Row :=
  { Date := parseDateCell (r.getD 0 .null)
    Item := cellStrD (r.getD 1 .null)
    Category := cellStrD (r.getD 2 .null)
    Amount := (parseNumCell (r.getD 3 .null)).getD 0
    Type' := cellStrD (r.getD 4 .null)
    Notes := cellStrD (r.getD 5 .null) }

/-- Formalisation of the spec's phrase "the contribution of any excluded
or unknown-date rows" in the monthly-trend claim: the expense amount
carried by rows with a null date. -/
def unknownDateExpenseSum (T : Table) : ℚ :=
  (((expenses T).filter (fun r => r.Date.isNone)).map (fun r => r.Amount)).sum

/-! ## Sorting lemmas -/

theorem insSorted_perm {α : Type} (le : α → α → Bool) (x : α) (l : List α) :
    (insSorted le x l).Perm (x :: l) := by
  induction l with
  | nil => exact List.Perm.refl _
  | cons y t ih =>
      simp only [insSorted]
      by_cases h : le x y = true
      · simp only [if_pos h]
        exact List.Perm.refl _
      · simp only [if_neg h]
        exact (ih.cons y).trans (List.Perm.swap x y t)

theorem sortBy_perm {α : Type} (le : α → α → Bool) (l : List α) :
    (sortBy le l).Perm l := by
  induction l with
  | nil => exact List.Perm.refl _
  | cons x t ih =>
      exact (insSorted_perm le x (sortBy le t)).trans (ih.cons x)

theorem insSorted_pairwise {α : Type} {le : α → α → Bool} {Q : α → α → Prop}
    (tot : ∀ a b, le a b = true ∨ le b a = true)
    (trans : ∀ a b c, le a b = true → le b c = true → le a c = true)
    (x : α) (l : List α)
    (hS : l.Pairwise (fun a b => le a b = true ∧ (le b a = true → Q a b)))
    (hx : ∀ y ∈ l, Q x y) :
    (insSorted le x l).Pairwise
      (fun a b => le a b = true ∧ (le b a = true → Q a b)) := by
  induction l with
  | nil => simp [insSorted]
  | cons y t ih =>
      rcases List.pairwise_cons.mp hS with ⟨hy, ht⟩
      by_cases h : le x y = true
      · simp only [insSorted, if_pos h]
        refine List.pairwise_cons.mpr ⟨?_, hS⟩
        intro z hz
        rcases List.mem_cons.mp hz with rfl | hzt
        · exact ⟨h, fun _ => hx z (List.mem_cons_self z t)⟩
        · exact ⟨trans x y z h (hy z hzt).1,
            fun _ => hx z (List.mem_cons_of_mem y hzt)⟩
      · simp only [insSorted, if_neg h]
        refine List.pairwise_cons.mpr
          ⟨?_, ih ht (fun z hz => hx z (List.mem_cons_of_mem y hz))⟩
        intro z hz
        rcases List.mem_cons.mp ((insSorted_perm le x t).mem_iff.mp hz) with rfl | hzt
        · rcases tot z y with hxy | hyx
          · exact absurd hxy h
          · exact ⟨hyx, fun hxy' => absurd hxy' h⟩
        · exact hy z hzt

theorem sortBy_pairwise {α : Type} {le : α → α → Bool} {Q : α → α → Prop}
    (tot : ∀ a b, le a b = true ∨ le b a = true)
    (trans : ∀ a b c, le a b = true → le b c = true → le a c = true)
    (l : List α) (hQ : l.Pairwise Q) :
    (sortBy le l).Pairwise
      (fun a b => le a b = true ∧ (le b a = true → Q a b)) := by
  induction l with
  | nil => simp [sortBy]
  | cons x t ih =>
      rcases List.pairwise_cons.mp hQ with ⟨hx, ht⟩
      exact insSorted_pairwise tot trans x _ (ih ht)
        (fun y hy => hx y ((sortBy_perm le t).mem_iff.mp hy))

theorem charListLe_cons_iff (x y : Char) (xs ys : List Char) :
    charListLe (x :: xs) (y :: ys) = true
      ↔ x < y ∨ (x = y ∧ charListLe xs ys = true) := by
  simp only [charListLe]
  by_cases h1 : x < y
  · simp [h1]
  · by_cases h2 : y < x
    · have hne : x ≠ y := fun h => absurd (h ▸ h2) (lt_irrefl x)
      simp [h1, h2, hne]
    · have hxy : x = y := le_antisymm (not_lt.mp h2) (not_lt.mp h1)
      simp [h1, h2, hxy]

theorem charListLe_total (a b : List Char) :
    charListLe a b = true ∨ charListLe b a = true := by
  induction a generalizing b with
  | nil => left; rfl
  | cons x xs ih =>
      cases b with
      | nil => right; rfl
      | cons y ys =>
          rw [charListLe_cons_iff, charListLe_cons_iff]
          rcases lt_trichotomy x y with h | h | h
          · exact Or.inl (Or.inl h)
          · rcases ih ys with hr | hr
            · exact Or.inl (Or.inr ⟨h, hr⟩)
            · exact Or.inr (Or.inr ⟨h.symm, hr⟩)
          · exact Or.inr (Or.inl h)

theorem charListLe_trans (a b c : List Char)
    (h1 : charListLe a b = true) (h2 : charListLe b c = true) :
    charListLe a c = true := by
  induction a generalizing b c with
  | nil => rfl
  | cons x xs ih =>
      cases b with
      | nil => simp [charListLe] at h1
      | cons y ys =>
          cases c with
          | nil => simp [charListLe] at h2
          | cons z zs =>
              rw [charListLe_cons_iff] at h1 h2 ⊢
              rcases h1 with h1 | ⟨rfl, h1⟩
              · rcases h2 with h2 | ⟨rfl, _⟩
                · exact Or.inl (lt_trans h1 h2)
                · exact Or.inl h1
              · rcases h2 with h2 | ⟨rfl, h2⟩
                · exact Or.inl h2
                · exact Or.inr ⟨rfl, ih ys zs h1 h2⟩

theorem strLeB_total (a b : String) : strLeB a b = true ∨ strLeB b a = true :=
  charListLe_total a.data b.data

theorem strLeB_trans (a b c : String)
    (h1 : strLeB a b = true) (h2 : strLeB b c = true) : strLeB a c = true :=
  charListLe_trans a.data b.data c.data h1 h2

/-! ## Grouping lemmas -/

theorem sum_map_ite (ks : List String) (a : String) (c : ℚ)
    (hN : ks.Nodup) (ha : a ∈ ks) :
    (ks.map (fun k => if a == k then c else 0)).sum = c := by
  induction ks with
  | nil => cases ha
  | cons k t ih =>
      rcases List.nodup_cons.mp hN with ⟨hkt, htN⟩
      rcases List.mem_cons.mp ha with rfl | hat
      · have hz : (t.map (fun k => if a == k then c else 0)).sum = 0 := by
          apply List.sum_eq_zero
          intro q hq
          rcases List.mem_map.mp hq with ⟨k', hk', rfl⟩
          have : ¬ (a == k') = true := by
            simp only [beq_iff_eq]
            intro h; exact hkt (h ▸ hk')
          simp [this]
        rw [List.map_cons, List.sum_cons, hz, add_zero]
        simp
      · have hka : ¬ (a == k) = true := by
          simp only [beq_iff_eq]
          intro h; exact hkt (h ▸ hat)
        simp only [List.map_cons, List.sum_cons, if_neg hka, zero_add]
        exact ih htN hat

theorem sum_fiberSums (key : Row → String) (l : List Row) (ks : List String)
    (hN : ks.Nodup) (hmem : ∀ r ∈ l, key r ∈ ks) :
    (ks.map (fun k =>
      ((l.filter (fun r => key r == k)).map (fun r => r.Amount)).sum)).sum
      = (l.map (fun r => r.Amount)).sum := by
  induction l with
  | nil => simp
  | cons r t ih =>
      have hmt : ∀ x ∈ t, key x ∈ ks := fun x hx => hmem x (List.mem_cons_of_mem r hx)
      have step : ∀ k ∈ ks,
          (((r :: t).filter (fun x => key x == k)).map (fun x => x.Amount)).sum
            = (if key r == k then r.Amount else 0)
              + ((t.filter (fun x => key x == k)).map (fun x => x.Amount)).sum := by
        intro k _
        by_cases h : (key r == k) = true
        · simp [List.filter_cons, h]
        · simp [List.filter_cons, h]
      rw [List.map_congr_left step, List.sum_map_add, ih hmt, sum_map_ite ks (key r) r.Amount hN (hmem r (List.mem_cons_self r t))]
      simp

theorem groupbySum_keys (key : Row → String) (T : Table) :
    (groupbySum key T).map Prod.fst = sortStr ((T.map key).dedup) := by
  unfold groupbySum
  rw [List.map_map]
  exact List.map_id _

theorem groupbySum_keys_nodup (key : Row → String) (T : Table) :
    ((groupbySum key T).map Prod.fst).Nodup := by
  rw [groupbySum_keys]
  exact (sortBy_perm strLeB ((T.map key).dedup)).symm.nodup (List.nodup_dedup _)

theorem groupbySum_keys_perm (key : Row → String) (T : Table) :
    ((groupbySum key T).map Prod.fst).Perm ((T.map key).dedup) := by
  rw [groupbySum_keys]
  exact sortBy_perm strLeB ((T.map key).dedup)

theorem groupbySum_sum (key : Row → String) (T : Table) :
    ((groupbySum key T).map Prod.snd).sum = (T.map (fun r => r.Amount)).sum := by
  have hN : (sortStr ((T.map key).dedup)).Nodup :=
    (sortBy_perm strLeB ((T.map key).dedup)).symm.nodup (List.nodup_dedup _)
  have hmem : ∀ r ∈ T, key r ∈ sortStr ((T.map key).dedup) := by
    intro r hr
    exact (sortBy_perm strLeB ((T.map key).dedup)).mem_iff.mpr
      (List.mem_dedup.mpr (List.mem_map_of_mem key hr))
  have := sum_fiberSums key T (sortStr ((T.map key).dedup)) hN hmem
  simpa [groupbySum, List.map_map, Function.comp] using this

/-- Each entry of a group-by result pairs a key with the amount sum of its
fiber, and the key occurs among the rows. -/
theorem groupbySum_mem (key : Row → String) (T : Table) (p : String × ℚ)
    (hp : p ∈ groupbySum key T) :
    p.1 ∈ (T.map key).dedup
      ∧ p.2 = ((T.filter (fun r => key r == p.1)).map (fun r => r.Amount)).sum := by
  rcases List.mem_map.mp hp with ⟨k, hk, rfl⟩
  exact ⟨(sortBy_perm strLeB ((T.map key).dedup)).mem_iff.mp hk, rfl⟩

/-- The group keys come out in (strictly) ascending order. -/
theorem groupbySum_pairwise (key : Row → String) (T : Table) :
    (groupbySum key T).Pairwise
      (fun a b => strLeB a.1 b.1 = true ∧ a.1 ≠ b.1) := by
  have hperm := sortBy_perm strLeB ((T.map key).dedup)
  have hN : (sortStr ((T.map key).dedup)).Nodup :=
    hperm.symm.nodup (List.nodup_dedup _)
  have hS : (sortStr ((T.map key).dedup)).Pairwise (fun a b => strLeB a b = true) := by
    have := @sortBy_pairwise String strLeB (fun _ _ : String => True)
      strLeB_total strLeB_trans ((T.map key).dedup) (List.pairwise_of_forall (by simp))
    exact this.imp (fun h => h.1)
  have hcomb := hS.and hN
  rw [groupbySum, List.pairwise_map]
  exact hcomb.imp (fun h => ⟨h.1, h.2⟩)

/-! ## Loading lemmas -/

theorem cellDateD_coerce (c : Cell) : cellDateD (coerceDateCell c) = parseDateCell c := by
  unfold coerceDateCell
  cases parseDateCell c <;> rfl

theorem cellRatD_coerce (c : Cell) : cellRatD (coerceNumCell c) = (parseNumCell c).getD 0 := rfl

theorem load_data_empty (h : List String) : load_data ⟨h, []⟩ = ⟨stdCols, []⟩ := rfl

theorem load_data_std (rows : List (List Cell)) :
    load_data ⟨stdCols, rows⟩ = ⟨stdCols, rows.map coerceStdCells⟩ := by
  cases rows with
  | nil => rfl
  | cons r t =>
      show (⟨stdCols, ((r :: t).map
          (fun x => x.set 3 (coerceNumCell (x.getD 3 .null)))).map
          (fun x => x.set 0 (coerceDateCell (x.getD 0 .null)))⟩ : DataFrame) = _
      rw [List.map_map]
      congr 1
      apply List.map_congr_left
      intro x _
      show (x.set 3 (coerceNumCell (x.getD 3 .null))).set 0
        (coerceDateCell ((x.set 3 (coerceNumCell (x.getD 3 .null))).getD 0 .null))
        = coerceStdCells x
      unfold coerceStdCells
      congr 2
      simp [List.getD_eq_getElem?_getD,
        List.getElem?_set_ne (by decide : (3 : Nat) ≠ 0)]

theorem rowOfCells_coerceStdCells (r : List Cell) :
    rowOfCells stdCols (coerceStdCells r) = coerceStdRow r := by
  match r with
  | [] => rfl
  | [a] =>
      simp [coerceStdCells, coerceStdRow, rowOfCells, lookupCell, stdCols,
        cellDateD_coerce, cellRatD_coerce]
      rfl
  | [a, b] =>
      simp [coerceStdCells, coerceStdRow, rowOfCells, lookupCell, stdCols,
        cellDateD_coerce, cellRatD_coerce]
      rfl
  | [a, b, c] =>
      simp [coerceStdCells, coerceStdRow, rowOfCells, lookupCell, stdCols,
        cellDateD_coerce, cellRatD_coerce]
      rfl
  | a :: b :: c :: d :: rest =>
      simp [coerceStdCells, coerceStdRow, rowOfCells, lookupCell, stdCols,
        cellDateD_coerce, cellRatD_coerce]

theorem toTable_load_std (rows : List (List Cell)) :
    toTable (load_data ⟨stdCols, rows⟩) = rows.map coerceStdRow := by
  rw [load_data_std]
  unfold toTable
  rw [List.map_map]
  exact List.map_congr_left (fun r _ => rowOfCells_coerceStdCells r)

/-! ## Totals lemmas -/

theorem total_spend_append (T1 T2 : Table) :
    total_spend (T1 ++ T2) = total_spend T1 + total_spend T2 := by
  simp [total_spend]

theorem total_income_append (T1 T2 : Table) :
    total_income (T1 ++ T2) = total_income T1 + total_income T2 := by
  simp [total_income]

/-! ## Generic-header loading lemmas -/

theorem findIdx?_col {cols : List String} {c : String} {i : Nat}
    (h : cols.findIdx? (fun x => x == c) = some i) :
    ∃ hlt : i < cols.length, cols[i] = c := by
  rcases List.findIdx?_eq_some_iff_getElem.mp h with ⟨hlt, hp, _⟩
  exact ⟨hlt, by rwa [beq_iff_eq] at hp⟩

theorem contains_of_findIdx? {cols : List String} {c : String} {i : Nat}
    (h : cols.findIdx? (fun x => x == c) = some i) : cols.contains c = true := by
  rcases findIdx?_col h with ⟨hlt, hv⟩
  exact List.elem_iff.mpr (hv ▸ List.getElem_mem hlt)

theorem not_contains_of_not_mem {cols : List String} {c : String}
    (h : c ∉ cols) : cols.contains c = false := by
  rcases hc : cols.contains c with _ | _
  · rfl
  · exact absurd (List.elem_iff.mp hc) h

theorem findIdx?_col_none {cols : List String} {c : String}
    (h : c ∉ cols) : cols.findIdx? (fun x => x == c) = none := by
  rw [List.findIdx?_eq_none_iff]
  intro x hx
  rcases hb : (x == c) with _ | _
  · rfl
  · exact absurd (beq_iff_eq.mp hb ▸ hx) h

theorem findIdx?_col_ne {cols : List String} {c1 c2 : String} {i j : Nat}
    (h1 : cols.findIdx? (fun x => x == c1) = some i)
    (h2 : cols.findIdx? (fun x => x == c2) = some j)
    (hne : c1 ≠ c2) : i ≠ j := by
  rcases findIdx?_col h1 with ⟨_, hv1⟩
  rcases findIdx?_col h2 with ⟨_, hv2⟩
  intro hij
  exact hne (hv1 ▸ hij ▸ hv2)

/-- `load_data` on a non-empty store whose header has both an `Amount` and
a `Date` column: both coercions fire, at their respective indices. -/
theorem load_data_of_idx (s : Sheet) (ai di : Nat) (hne : s.rows ≠ [])
    (hA : s.headers.findIdx? (fun x => x == "Amount") = some ai)
    (hD : s.headers.findIdx? (fun x => x == "Date") = some di) :
    load_data s = ⟨s.headers,
      s.rows.map (fun r =>
        (r.set ai (coerceNumCell (r.getD ai .null))).set di
          (coerceDateCell ((r.set ai (coerceNumCell (r.getD ai .null))).getD di .null)))⟩ := by
  rcases s with ⟨hs, rows⟩
  cases rows with
  | nil => exact absurd rfl hne
  | cons r t =>
      simp only at hA hD
      unfold load_data
      simp only [List.isEmpty_cons, Bool.false_eq_true, if_false,
        DataFrame.hasCol, contains_of_findIdx? hA, contains_of_findIdx? hD, if_true]
      unfold mapCol
      simp only [hA, hD, List.map_map]
      simp only [DataFrame.hasCol, contains_of_findIdx? hD, if_true]
      rfl

/-- `load_data` on a non-empty store: the `Amount` coercion is skipped
when the header lacks an `Amount` column, and likewise for `Date`. -/
theorem load_data_no_amount (s : Sheet) (di : Nat) (hne : s.rows ≠ [])
    (hA : "Amount" ∉ s.headers)
    (hD : s.headers.findIdx? (fun x => x == "Date") = some di) :
    load_data s = ⟨s.headers,
      s.rows.map (fun r => r.set di (coerceDateCell (r.getD di .null)))⟩ := by
  rcases s with ⟨hs, rows⟩
  cases rows with
  | nil => exact absurd rfl hne
  | cons r t =>
      simp only at hD hA
      unfold load_data
      simp only [List.isEmpty_cons, Bool.false_eq_true, if_false,
        DataFrame.hasCol, not_contains_of_not_mem hA, contains_of_findIdx? hD, if_true]
      unfold mapCol
      simp only [hD]

theorem load_data_no_date (s : Sheet) (ai : Nat) (hne : s.rows ≠ [])
    (hA : s.headers.findIdx? (fun x => x == "Amount") = some ai)
    (hD : "Date" ∉ s.headers) :
    load_data s = ⟨s.headers,
      s.rows.map (fun r => r.set ai (coerceNumCell (r.getD ai .null)))⟩ := by
  rcases s with ⟨hs, rows⟩
  cases rows with
  | nil => exact absurd rfl hne
  | cons r t =>
      simp only at hA
      unfold load_data
      simp only [List.isEmpty_cons, Bool.false_eq_true, if_false,
        DataFrame.hasCol, not_contains_of_not_mem hD, contains_of_findIdx? hA, if_true]
      unfold mapCol
      simp only [hA]
      simp only [DataFrame.hasCol, not_contains_of_not_mem hD, Bool.false_eq_true, if_false]

theorem load_data_no_amount_no_date (s : Sheet) (hne : s.rows ≠ [])
    (hA : "Amount" ∉ s.headers) (hD : "Date" ∉ s.headers) :
    load_data s = ⟨s.headers, s.rows⟩ := by
  rcases s with ⟨hs, rows⟩
  cases rows with
  | nil => exact absurd rfl hne
  | cons r t =>
      unfold load_data
      simp only [List.isEmpty_cons, Bool.false_eq_true, if_false,
        DataFrame.hasCol, not_contains_of_not_mem hA, not_contains_of_not_mem hD]

/-! ## Remaining helper lemmas -/

theorem sum_filter_map_eq_sum_ite (p : Row → Bool) (T : Table) :
    ((T.filter p).map (fun r => r.Amount)).sum
      = (T.map (fun r => if p r = true then r.Amount else 0)).sum := by
  induction T with
  | nil => rfl
  | cons r t ih =>
      by_cases h : p r = true
      · simp [List.filter_cons, h, ih]
      · simp [List.filter_cons, h, ih]

theorem total_spend_skip (T1 T2 : Table) (r : Row) (h : r.Type' ≠ "Expense") :
    total_spend (T1 ++ r :: T2) = total_spend (T1 ++ T2) := by
  have hb : (r.Type' == "Expense") = false := by
    simpa using h
  simp [total_spend, List.filter_append, List.filter_cons, hb]

theorem total_income_skip (T1 T2 : Table) (r : Row) (h : r.Type' ≠ "Income") :
    total_income (T1 ++ r :: T2) = total_income (T1 ++ T2) := by
  have hb : (r.Type' == "Income") = false := by
    simpa using h
  simp [total_income, List.filter_append, List.filter_cons, hb]

/-! ## The claims -/

/-- C1: `totalExpense` sums `Amount` over exactly the rows typed
`"Expense"`, `totalIncome` over exactly the rows typed `"Income"`,
`balance = totalIncome - totalExpense` (so
`totalExpense - totalIncome = -balance`), and a row of any other type
(e.g. `"Investment"`) contributes to neither total nor the balance. -/
theorem c1_totals_balance (T T1 T2 : Table) (r : Row)
    (h1 : r.Type' ≠ "Expense") (h2 : r.Type' ≠ "Income") :
    total_spend T = (T.map (fun x => if x.Type' = "Expense" then x.Amount else 0)).sum
    ∧ total_income T = (T.map (fun x => if x.Type' = "Income" then x.Amount else 0)).sum
    ∧ total_spend T - total_income T = -(balance T)
    ∧ total_spend (T1 ++ r :: T2) = total_spend (T1 ++ T2)
    ∧ total_income (T1 ++ r :: T2) = total_income (T1 ++ T2)
    ∧ balance (T1 ++ r :: T2) = balance (T1 ++ T2) := by
  refine ⟨?_, ?_, ?_, ?_, ?_, ?_⟩
  · rw [total_spend, sum_filter_map_eq_sum_ite]
    simp
  · rw [total_income, sum_filter_map_eq_sum_ite]
    simp
  · rw [balance]; ring
  · exact total_spend_skip T1 T2 r h1
  · exact total_income_skip T1 T2 r h2
  · rw [balance, balance, total_spend_skip T1 T2 r h1, total_income_skip T1 T2 r h2]

/-- C1 witness: the hypotheses and conclusion at a two-row table and an
inserted `"Investment"` row. -/
theorem c1_totals_balance_witness :
    ((⟨none, "x", "Other", 5, "Investment", ""⟩ : Row).Type' ≠ "Expense")
    ∧ ((⟨none, "x", "Other", 5, "Investment", ""⟩ : Row).Type' ≠ "Income")
    ∧ (total_spend [⟨none, "a", "Food", 100, "Expense", ""⟩]
          = (([(⟨none, "a", "Food", 100, "Expense", ""⟩ : Row)] : Table).map
              (fun x => if x.Type' = "Expense" then x.Amount else 0)).sum
        ∧ total_income [⟨none, "a", "Food", 100, "Expense", ""⟩]
          = (([(⟨none, "a", "Food", 100, "Expense", ""⟩ : Row)] : Table).map
              (fun x => if x.Type' = "Income" then x.Amount else 0)).sum
        ∧ total_spend [⟨none, "a", "Food", 100, "Expense", ""⟩]
            - total_income [⟨none, "a", "Food", 100, "Expense", ""⟩]
          = -(balance [⟨none, "a", "Food", 100, "Expense", ""⟩])
        ∧ total_spend ([] ++ (⟨none, "x", "Other", 5, "Investment", ""⟩ : Row)
              :: [⟨none, "s", "Salary", 1000, "Income", ""⟩])
          = total_spend ([] ++ [⟨none, "s", "Salary", 1000, "Income", ""⟩])
        ∧ total_income ([] ++ (⟨none, "x", "Other", 5, "Investment", ""⟩ : Row)
              :: [⟨none, "s", "Salary", 1000, "Income", ""⟩])
          = total_income ([] ++ [⟨none, "s", "Salary", 1000, "Income", ""⟩])
        ∧ balance ([] ++ (⟨none, "x", "Other", 5, "Investment", ""⟩ : Row)
              :: [⟨none, "s", "Salary", 1000, "Income", ""⟩])
          = balance ([] ++ [⟨none, "s", "Salary", 1000, "Income", ""⟩])) :=
  ⟨by decide, by decide,
    c1_totals_balance [⟨none, "a", "Food", 100, "Expense", ""⟩] []
      [⟨none, "s", "Salary", 1000, "Income", ""⟩]
      ⟨none, "x", "Other", 5, "Investment", ""⟩ (by decide) (by decide)⟩

/-- C3: loading an empty store yields the six fixed columns and zero rows,
and every aggregation over that empty table is zero or empty. -/
theorem c3_empty_load (h : List String) :
    load_data ⟨h, []⟩
      = ⟨["Date", "Item", "Category", "Amount", "Type", "Notes"], []⟩
    ∧ (load_data ⟨h, []⟩).rows.length = 0
    ∧ toTable (load_data ⟨h, []⟩) = []
    ∧ total_spend (toTable (load_data ⟨h, []⟩)) = 0
    ∧ total_income (toTable (load_data ⟨h, []⟩)) = 0
    ∧ balance (toTable (load_data ⟨h, []⟩)) = 0
    ∧ cat_breakdown (toTable (load_data ⟨h, []⟩)) = []
    ∧ monthly_data (toTable (load_data ⟨h, []⟩)) = []
    ∧ recent (toTable (load_data ⟨h, []⟩)) = [] := by
  refine ⟨rfl, rfl, rfl, rfl, rfl, ?_, rfl, rfl, rfl⟩
  rw [show toTable (load_data ⟨h, []⟩) = [] from rfl]
  simp [balance, total_spend, total_income]

/-- C7: the submitted row is assembled in the fixed physical order
[Date, Item, Category, Amount, Type, Notes] — `Category` at index 2,
before `Amount` (index 3) and `Type` (index 4) — and exactly that one row
is appended at the end of the store. -/
theorem c7_row_order (d : YMD) (item : String) (amount : ℚ)
    (ty cat notes : String) (s : Sheet) :
    (new_row d item amount ty cat notes).length = 6
    ∧ (new_row d item amount ty cat notes).getD 0 .null = .str (dateToStr d)
    ∧ (new_row d item amount ty cat notes).getD 1 .null = .str item
    ∧ (new_row d item amount ty cat notes).getD 2 .null = .str cat
    ∧ (new_row d item amount ty cat notes).getD 3 .null = .num amount
    ∧ (new_row d item amount ty cat notes).getD 4 .null = .str ty
    ∧ (new_row d item amount ty cat notes).getD 5 .null = .str notes
    ∧ (submit_handler none s d item amount ty cat notes).sheet.rows
        = s.rows ++ [new_row d item amount ty cat notes]
    ∧ (submit_handler none s d item amount ty cat notes).sheet.headers
        = s.headers
    ∧ (submit_handler none s d item amount ty cat notes).attempts
        = [new_row d item amount ty cat notes] :=
  ⟨rfl, rfl, rfl, rfl, rfl, rfl, rfl, rfl, rfl, rfl⟩

/-- C9: when the append raises, the handler surfaces the store's error
message, makes exactly one append attempt, leaves the store unchanged
(no retry, no re-queue) and does not fire the reload that a successful
submission fires. -/
theorem c9_append_failure (e : String) (s : Sheet) (d : YMD) (item : String)
    (amount : ℚ) (ty cat notes : String) :
    (submit_handler (some e) s d item amount ty cat notes).message
        = "Error saving to Google Sheet: " ++ e
    ∧ (submit_handler (some e) s d item amount ty cat notes).attempts.length = 1
    ∧ (submit_handler (some e) s d item amount ty cat notes).sheet = s
    ∧ (submit_handler (some e) s d item amount ty cat notes).reran = false
    ∧ (submit_handler none s d item amount ty cat notes).reran = true :=
  ⟨rfl, rfl, rfl, rfl, rfl⟩

/-- C5: the categories listed by the breakdown are exactly the distinct
categories of the `"Expense"` rows, each once, and the breakdown's amount
column sums to `totalExpense`. -/
theorem c5_breakdown_partition (T : Table) :
    ((cat_breakdown T).map Prod.fst).Perm
        (((T.filter (fun r => r.Type' == "Expense")).map
          (fun r => r.Category)).dedup)
    ∧ ((cat_breakdown T).map Prod.fst).Nodup
    ∧ ((cat_breakdown T).map Prod.snd).sum = total_spend T := by
  have hperm : (cat_breakdown T).Perm
      (groupbySum (fun r => r.Category) (expenses T)) :=
    sortBy_perm _ _
  refine ⟨?_, ?_, ?_⟩
  · exact (hperm.map Prod.fst).trans
      (groupbySum_keys_perm (fun r => r.Category) (expenses T))
  · exact ((hperm.map Prod.fst).symm).nodup
      (groupbySum_keys_nodup (fun r => r.Category) (expenses T))
  · rw [(hperm.map Prod.snd).sum_eq,
      groupbySum_sum (fun r => r.Category) (expenses T)]
    rfl

/-- C6 counterexample: on a table holding a single null-date `"Expense"`
row of amount 50, the monthly trend's per-bucket totals sum to 50, while
the claim's value — `totalExpense` minus the contribution of the
unknown-date rows — is 0: the code does not exclude null-date rows, it
groups them under the `"NaT"` bucket. -/
theorem c6_counterexample :
    ¬ (((monthly_data [⟨none, "Lunch", "Food", 50, "Expense", ""⟩]).map Prod.snd).sum
        = total_spend [⟨none, "Lunch", "Food", 50, "Expense", ""⟩]
          - unknownDateExpenseSum [⟨none, "Lunch", "Food", 50, "Expense", ""⟩]) := by
  intro heq
  rw [show monthly_data [(⟨none, "Lunch", "Food", 50, "Expense", ""⟩ : Row)]
      = [("NaT", ((50 : ℚ) + 0))] from rfl] at heq
  rw [show total_spend [(⟨none, "Lunch", "Food", 50, "Expense", ""⟩ : Row)]
      = (50 : ℚ) + 0 from rfl] at heq
  rw [show unknownDateExpenseSum [(⟨none, "Lunch", "Food", 50, "Expense", ""⟩ : Row)]
      = (50 : ℚ) + 0 from rfl] at heq
  norm_num at heq

/-- C6 (amended): the monthly trend filters the `"Expense"` rows, keys
them by the `"YYYY-MM"` rendering of their date — null dates rendering as
the key `"NaT"`, not excluded — sums amounts per key, emits the buckets
in ascending (hence, on the date-derived keys, chronological) key order,
and its per-bucket totals sum to `totalExpense` exactly. -/
theorem c6_monthly_trend (T : Table) :
    ((monthly_data T).map Prod.snd).sum = total_spend T
    ∧ (∀ p ∈ monthly_data T,
        p.1 ∈ ((expenses T).map monthKey).dedup
        ∧ p.2 = (((expenses T).filter (fun r => monthKey r == p.1)).map
            (fun r => r.Amount)).sum)
    ∧ (monthly_data T).Pairwise (fun a b => strLeB a.1 b.1 = true ∧ a.1 ≠ b.1) := by
  refine ⟨?_, ?_, ?_⟩
  · rw [monthly_data, groupbySum_sum monthKey (expenses T)]
    rfl
  · intro p hp
    exact groupbySum_mem monthKey (expenses T) p hp
  · exact groupbySum_pairwise monthKey (expenses T)

/-- C8: over any standard-layout store, submitting
(2024-01-05, "Coffee", 4.50, "Expense", "Food", "") and reloading yields a
table containing exactly that row (typed: date 2024-01-05, amount 4.50),
and `totalExpense` of the reloaded table exceeds `totalExpense` of the
previously loaded table by exactly 4.50. -/
theorem c8_round_trip (rows : List (List Cell)) :
    (⟨some ⟨2024, 1, 5⟩, "Coffee", "Food", (4.5 : ℚ), "Expense", ""⟩ : Row)
      ∈ toTable (load_data (submit_handler none ⟨stdCols, rows⟩
          ⟨2024, 1, 5⟩ "Coffee" (4.5 : ℚ) "Expense" "Food" "").sheet)
    ∧ total_spend (toTable (load_data (submit_handler none ⟨stdCols, rows⟩
          ⟨2024, 1, 5⟩ "Coffee" (4.5 : ℚ) "Expense" "Food" "").sheet))
        = total_spend (toTable (load_data ⟨stdCols, rows⟩)) + (4.5 : ℚ) := by
  have hsheet : (submit_handler none ⟨stdCols, rows⟩
      ⟨2024, 1, 5⟩ "Coffee" (4.5 : ℚ) "Expense" "Food" "").sheet
      = ⟨stdCols, rows ++ [new_row ⟨2024, 1, 5⟩ "Coffee" (4.5 : ℚ) "Expense" "Food" ""]⟩ := rfl
  have hd : parseDateCell (Cell.str (dateToStr ⟨2024, 1, 5⟩)) = some ⟨2024, 1, 5⟩ := by
    decide
  have hrow : coerceStdRow (new_row ⟨2024, 1, 5⟩ "Coffee" (4.5 : ℚ) "Expense" "Food" "")
      = ⟨some ⟨2024, 1, 5⟩, "Coffee", "Food", (4.5 : ℚ), "Expense", ""⟩ := by
    simp [coerceStdRow, new_row, hd, cellStrD, parseNumCell]
  rw [hsheet, toTable_load_std, toTable_load_std, List.map_append]
  constructor
  · apply List.mem_append_right
    rw [show List.map coerceStdRow [new_row ⟨2024, 1, 5⟩ "Coffee" (4.5 : ℚ) "Expense" "Food" ""]
        = [coerceStdRow (new_row ⟨2024, 1, 5⟩ "Coffee" (4.5 : ℚ) "Expense" "Food" "")] from rfl,
      hrow]
    exact List.mem_singleton.mpr rfl
  · rw [total_spend_append]
    congr 1
    rw [show List.map coerceStdRow [new_row ⟨2024, 1, 5⟩ "Coffee" (4.5 : ℚ) "Expense" "Food" ""]
        = [coerceStdRow (new_row ⟨2024, 1, 5⟩ "Coffee" (4.5 : ℚ) "Expense" "Food" "")] from rfl,
      hrow]
    simp [total_spend]

/-- Rewriting one fixed column of every row leaves the named cells of
every other column unchanged. -/
theorem lookup_set_skip (headers : List String) (rows : List (List Cell))
    (dj : Nat) (v : List Cell → Cell) (c : String) (ci : Nat)
    (hci : headers.findIdx? (fun x => x == c) = some ci) (hcd : ci ≠ dj) (i : Nat) :
    lookupCell headers ((rows.map (fun r => r.set dj (v r))).getD i []) c
      = lookupCell headers (rows.getD i []) c := by
  unfold lookupCell
  rw [hci]
  by_cases hii : i < rows.length
  · have h1 : (rows.map (fun r => r.set dj (v r))).getD i []
        = (rows[i]).set dj (v rows[i]) := by
      simp [List.getD_eq_getElem?_getD, List.getElem?_eq_getElem hii]
    have h2 : rows.getD i [] = rows[i] := by
      simp [List.getD_eq_getElem?_getD, List.getElem?_eq_getElem hii]
    rw [h1, h2]
    simp [List.getD_eq_getElem?_getD, List.getElem?_set_ne (Ne.symm hcd)]
  · have hle : rows.length ≤ i := not_lt.mp hii
    have h1 : (rows.map (fun r => r.set dj (v r)))[i]? = none :=
      List.getElem?_eq_none (by simpa using hle)
    have h2 : rows[i]? = none := List.getElem?_eq_none hle
    simp [List.getD_eq_getElem?_getD, h1, h2]

theorem lookupCell_idx {cols : List String} {c : String} {ci : Nat}
    (h : cols.findIdx? (fun x => x == c) = some ci) (r : List Cell) :
    lookupCell cols r c = r.getD ci .null := by
  unfold lookupCell
  rw [h]

theorem lookupCell_none {cols : List String} {c : String}
    (h : cols.findIdx? (fun x => x == c) = none) (r : List Cell) :
    lookupCell cols r c = .null := by
  unfold lookupCell
  rw [h]

theorem getD_set_self' (l : List Cell) (i : Nat) (a : Cell) (h : i < l.length) :
    (l.set i a).getD i .null = a := by
  rw [List.getD_eq_getElem?_getD, List.getElem?_set_self h]
  rfl

theorem getD_set_outer (r : List Cell) (ai di : Nat) (A D : Cell)
    (hne : ai ≠ di) (hlt : ai < r.length) :
    ((r.set ai A).set di D).getD ai .null = A := by
  rw [List.getD_eq_getElem?_getD, List.getElem?_set_ne (Ne.symm hne),
    List.getElem?_set_self hlt]
  rfl

/-- C2: loading a non-empty store builds one table row per fetched row
and silently coerces in place: an `Amount` cell that parses as a number
keeps its value, one that does not becomes the number 0; a `Date` cell
that parses as a date keeps its value, one that does not becomes the null
marker.  No row or column is dropped and the load always produces a
table. -/
theorem c2_silent_coercion (s : Sheet) (ai di i : Nat)
    (hne : s.rows ≠ [])
    (hwf : ∀ r ∈ s.rows, r.length = s.headers.length)
    (hA : s.headers.findIdx? (fun x => x == "Amount") = some ai)
    (hD : s.headers.findIdx? (fun x => x == "Date") = some di)
    (hi : i < s.rows.length) :
    (load_data s).cols = s.headers
    ∧ (load_data s).rows.length = s.rows.length
    ∧ (∀ q, parseNumCell (s.cell i "Amount") = some q →
        (load_data s).cell i "Amount" = .num q)
    ∧ (parseNumCell (s.cell i "Amount") = none →
        (load_data s).cell i "Amount" = .num 0)
    ∧ (∀ d, parseDateCell (s.cell i "Date") = some d →
        (load_data s).cell i "Date" = .date d)
    ∧ (parseDateCell (s.cell i "Date") = none →
        (load_data s).cell i "Date" = .null) := by
  have hload := load_data_of_idx s ai di hne hA hD
  have hadne : ai ≠ di := findIdx?_col_ne hA hD (by decide)
  obtain ⟨hailt, -⟩ := findIdx?_col hA
  obtain ⟨hdilt, -⟩ := findIdx?_col hD
  have hrl : (s.rows[i]).length = s.headers.length :=
    hwf s.rows[i] (List.getElem_mem hi)
  have hcols : (load_data s).cols = s.headers := by rw [hload]
  have hrows : (load_data s).rows = s.rows.map (fun r =>
      (r.set ai (coerceNumCell (r.getD ai .null))).set di
        (coerceDateCell ((r.set ai (coerceNumCell (r.getD ai .null))).getD di .null))) := by
    rw [hload]
  have hgetrow : (load_data s).rows.getD i []
      = ((s.rows[i]).set ai (coerceNumCell ((s.rows[i]).getD ai .null))).set di
          (coerceDateCell (((s.rows[i]).set ai
            (coerceNumCell ((s.rows[i]).getD ai .null))).getD di .null)) := by
    rw [hrows]
    simp [List.getD_eq_getElem?_getD, List.getElem?_eq_getElem hi]
  have hsrow : s.rows.getD i [] = s.rows[i] := by
    simp [List.getD_eq_getElem?_getD, List.getElem?_eq_getElem hi]
  have hscellA : s.cell i "Amount" = (s.rows[i]).getD ai .null := by
    unfold Sheet.cell lookupCell
    rw [hA, hsrow]
  have hscellD : s.cell i "Date" = (s.rows[i]).getD di .null := by
    unfold Sheet.cell lookupCell
    rw [hD, hsrow]
  have hinner : ((s.rows[i]).set ai
      (coerceNumCell ((s.rows[i]).getD ai .null))).getD di .null
      = (s.rows[i]).getD di .null := by
    simp [List.getD_eq_getElem?_getD, List.getElem?_set_ne hadne]
  have hamt : (load_data s).cell i "Amount"
      = coerceNumCell ((s.rows[i]).getD ai .null) := by
    unfold DataFrame.cell
    rw [hcols, lookupCell_idx hA, hgetrow,
      getD_set_outer _ _ _ _ _ hadne (by rw [hrl]; exact hailt)]
  have hdate : (load_data s).cell i "Date"
      = coerceDateCell ((s.rows[i]).getD di .null) := by
    unfold DataFrame.cell
    rw [hcols, lookupCell_idx hD, hgetrow, hinner,
      getD_set_self' _ _ _ (by rw [List.length_set, hrl]; exact hdilt)]
  refine ⟨hcols, by rw [hrows]; simp, ?_, ?_, ?_, ?_⟩
  · intro q hq
    rw [hscellA] at hq
    rw [hamt]
    simp only [coerceNumCell, hq, Option.getD_some]
  · intro hq
    rw [hscellA] at hq
    rw [hamt]
    simp only [coerceNumCell, hq, Option.getD_none]
  · intro d hq
    rw [hscellD] at hq
    rw [hdate]
    simp only [coerceDateCell, hq]
  · intro hq
    rw [hscellD] at hq
    rw [hdate]
    simp only [coerceDateCell, hq]

/-- C2 witness: a one-row standard store whose `Amount` and `Date` cells
are both the unparseable string "abc", plus the instantiated conclusion. -/
theorem c2_silent_coercion_witness :
    ((⟨stdCols, [[Cell.str "abc", Cell.str "Tea", Cell.str "Food",
        Cell.str "abc", Cell.str "Expense", Cell.str ""]]⟩ : Sheet).rows ≠ [])
    ∧ (∀ r ∈ (⟨stdCols, [[Cell.str "abc", Cell.str "Tea", Cell.str "Food",
        Cell.str "abc", Cell.str "Expense", Cell.str ""]]⟩ : Sheet).rows,
        r.length = stdCols.length)
    ∧ (stdCols.findIdx? (fun x => x == "Amount") = some 3)
    ∧ (stdCols.findIdx? (fun x => x == "Date") = some 0)
    ∧ (0 < (⟨stdCols, [[Cell.str "abc", Cell.str "Tea", Cell.str "Food",
        Cell.str "abc", Cell.str "Expense", Cell.str ""]]⟩ : Sheet).rows.length)
    ∧ ((load_data ⟨stdCols, [[Cell.str "abc", Cell.str "Tea", Cell.str "Food",
          Cell.str "abc", Cell.str "Expense", Cell.str ""]]⟩).cols = stdCols
      ∧ (load_data ⟨stdCols, [[Cell.str "abc", Cell.str "Tea", Cell.str "Food",
          Cell.str "abc", Cell.str "Expense", Cell.str ""]]⟩).rows.length
        = (⟨stdCols, [[Cell.str "abc", Cell.str "Tea", Cell.str "Food",
          Cell.str "abc", Cell.str "Expense", Cell.str ""]]⟩ : Sheet).rows.length
      ∧ (∀ q, parseNumCell ((⟨stdCols, [[Cell.str "abc", Cell.str "Tea", Cell.str "Food",
          Cell.str "abc", Cell.str "Expense", Cell.str ""]]⟩ : Sheet).cell 0 "Amount") = some q →
          (load_data ⟨stdCols, [[Cell.str "abc", Cell.str "Tea", Cell.str "Food",
            Cell.str "abc", Cell.str "Expense", Cell.str ""]]⟩).cell 0 "Amount" = .num q)
      ∧ (parseNumCell ((⟨stdCols, [[Cell.str "abc", Cell.str "Tea", Cell.str "Food",
          Cell.str "abc", Cell.str "Expense", Cell.str ""]]⟩ : Sheet).cell 0 "Amount") = none →
          (load_data ⟨stdCols, [[Cell.str "abc", Cell.str "Tea", Cell.str "Food",
            Cell.str "abc", Cell.str "Expense", Cell.str ""]]⟩).cell 0 "Amount" = .num 0)
      ∧ (∀ d, parseDateCell ((⟨stdCols, [[Cell.str "abc", Cell.str "Tea", Cell.str "Food",
          Cell.str "abc", Cell.str "Expense", Cell.str ""]]⟩ : Sheet).cell 0 "Date") = some d →
          (load_data ⟨stdCols, [[Cell.str "abc", Cell.str "Tea", Cell.str "Food",
            Cell.str "abc", Cell.str "Expense", Cell.str ""]]⟩).cell 0 "Date" = .date d)
      ∧ (parseDateCell ((⟨stdCols, [[Cell.str "abc", Cell.str "Tea", Cell.str "Food",
          Cell.str "abc", Cell.str "Expense", Cell.str ""]]⟩ : Sheet).cell 0 "Date") = none →
          (load_data ⟨stdCols, [[Cell.str "abc", Cell.str "Tea", Cell.str "Food",
            Cell.str "abc", Cell.str "Expense", Cell.str ""]]⟩).cell 0 "Date" = .null)) :=
  ⟨by decide, by decide, by decide, by decide, by decide,
    c2_silent_coercion
      ⟨stdCols, [[Cell.str "abc", Cell.str "Tea", Cell.str "Food",
        Cell.str "abc", Cell.str "Expense", Cell.str ""]]⟩ 3 0 0
      (by decide) (by decide) (by decide) (by decide) (by decide)⟩

/-- C10: on a non-empty fetched row set whose header lacks the `"Amount"`
key, the load still succeeds: the amount coercion step is skipped, the
result keeps the fetched header (so no `"Amount"` column appears), every
row survives, and every cell outside the `"Date"` column is untouched.
Symmetrically when the `"Date"` key is missing, and when both are missing
the load returns the fetched data unchanged — the column-existence guard
makes the loader total over arbitrary header schemas. -/
theorem c10_missing_column_guard (s : Sheet) (di : Nat) (hne : s.rows ≠ [])
    (hA : "Amount" ∉ s.headers)
    (hD : s.headers.findIdx? (fun x => x == "Date") = some di) :
    (load_data s).cols = s.headers
    ∧ "Amount" ∉ (load_data s).cols
    ∧ (load_data s).rows.length = s.rows.length
    ∧ (∀ i c, c ≠ "Date" → (load_data s).cell i c = s.cell i c)
    ∧ (∀ s2 : Sheet, s2.rows ≠ [] → "Amount" ∉ s2.headers → "Date" ∉ s2.headers →
        load_data s2 = ⟨s2.headers, s2.rows⟩)
    ∧ (∀ (s3 : Sheet) (ai : Nat), s3.rows ≠ [] →
        s3.headers.findIdx? (fun x => x == "Amount") = some ai →
        "Date" ∉ s3.headers →
        (load_data s3).cols = s3.headers
        ∧ (load_data s3).rows.length = s3.rows.length
        ∧ ∀ i c, c ≠ "Amount" → (load_data s3).cell i c = s3.cell i c) := by
  have hload := load_data_no_amount s di hne hA hD
  have hcols : (load_data s).cols = s.headers := by rw [hload]
  refine ⟨hcols, by rw [hcols]; exact hA, by rw [hload]; simp, ?_, ?_, ?_⟩
  · intro i c hc
    unfold DataFrame.cell Sheet.cell
    rw [hcols, hload]
    rcases hfind : s.headers.findIdx? (fun x => x == c) with _ | ci
    · rw [lookupCell_none hfind, lookupCell_none hfind]
    · have hcd : ci ≠ di := findIdx?_col_ne hfind hD hc
      exact lookup_set_skip s.headers s.rows di _ c ci hfind hcd i
  · intro s2 hne2 hA2 hD2
    exact load_data_no_amount_no_date s2 hne2 hA2 hD2
  · intro s3 ai hne3 hA3 hD3
    have hload3 := load_data_no_date s3 ai hne3 hA3 hD3
    have hcols3 : (load_data s3).cols = s3.headers := by rw [hload3]
    refine ⟨hcols3, by rw [hload3]; simp, ?_⟩
    intro i c hc
    unfold DataFrame.cell Sheet.cell
    rw [hcols3, hload3]
    rcases hfind : s3.headers.findIdx? (fun x => x == c) with _ | ci
    · rw [lookupCell_none hfind, lookupCell_none hfind]
    · have hcd : ci ≠ ai := findIdx?_col_ne hfind hA3 hc
      exact lookup_set_skip s3.headers s3.rows ai _ c ci hfind hcd i

/-- C10 witness: a two-column store (`Item`, `Date`) with one row — the
`Amount` key is absent — plus the instantiated conclusion. -/
theorem c10_missing_column_guard_witness :
    ((⟨["Item", "Date"], [[Cell.str "Tea", Cell.str "2024-01-05"]]⟩ : Sheet).rows ≠ [])
    ∧ ("Amount" ∉ (⟨["Item", "Date"], [[Cell.str "Tea", Cell.str "2024-01-05"]]⟩ : Sheet).headers)
    ∧ ((⟨["Item", "Date"], [[Cell.str "Tea", Cell.str "2024-01-05"]]⟩ : Sheet).headers.findIdx?
        (fun x => x == "Date") = some 1)
    ∧ ((load_data ⟨["Item", "Date"], [[Cell.str "Tea", Cell.str "2024-01-05"]]⟩).cols
        = ["Item", "Date"]
      ∧ "Amount" ∉ (load_data ⟨["Item", "Date"], [[Cell.str "Tea", Cell.str "2024-01-05"]]⟩).cols
      ∧ (load_data ⟨["Item", "Date"], [[Cell.str "Tea", Cell.str "2024-01-05"]]⟩).rows.length
        = (⟨["Item", "Date"], [[Cell.str "Tea", Cell.str "2024-01-05"]]⟩ : Sheet).rows.length
      ∧ (∀ i c, c ≠ "Date" →
          (load_data ⟨["Item", "Date"], [[Cell.str "Tea", Cell.str "2024-01-05"]]⟩).cell i c
            = (⟨["Item", "Date"], [[Cell.str "Tea", Cell.str "2024-01-05"]]⟩ : Sheet).cell i c)
      ∧ (∀ s2 : Sheet, s2.rows ≠ [] → "Amount" ∉ s2.headers → "Date" ∉ s2.headers →
          load_data s2 = ⟨s2.headers, s2.rows⟩)
      ∧ (∀ (s3 : Sheet) (ai : Nat), s3.rows ≠ [] →
          s3.headers.findIdx? (fun x => x == "Amount") = some ai →
          "Date" ∉ s3.headers →
          (load_data s3).cols = s3.headers
          ∧ (load_data s3).rows.length = s3.rows.length
          ∧ ∀ i c, c ≠ "Amount" → (load_data s3).cell i c = s3.cell i c)) :=
  ⟨by decide, by decide, by decide,
    c10_missing_column_guard
      ⟨["Item", "Date"], [[Cell.str "Tea", Cell.str "2024-01-05"]]⟩ 1
      (by decide) (by decide) (by decide)⟩

end SpendTracker
